import Mathlib

/-!
Verification of the orchestration core of the Cerina Protocol Foundry
(a LangGraph supervisor/worker pipeline for CBT exercise generation).

The definitions below are a shallow embedding of the Python sources:
  backend/models/state.py, backend/agents/supervisor.py,
  backend/agents/drafter.py, backend/agents/safety_guardian.py,
  backend/agents/clinical_critic.py, backend/graph/workflow.py,
  backend/main.py.
Each agent node returns a dict of state updates that LangGraph merges
into the shared `ProtocolState` blackboard: scalar channels are
overwritten, channels annotated with `operator.add` (`draft_versions`,
`scratchpad`, `messages`) are appended.  The embedding folds that merge
into direct state transformers; LLM calls and `json.loads` are external
oracles, so worker steps are parametrised by the generated draft text
respectively by the outcome of JSON-parsing the generator's reply.
Python floats for clinical scores are modelled as rationals (no claim
here depends on rounding), datetime timestamps are dropped, and Python
exceptions are modelled with `Except`.
-/

/-- Agent roles (state.py `AgentRole`): exactly four members.  There is no
`HUMAN` member; `AgentRole.fromAttr` below models Python attribute lookup
on the enum class. -/
inductive AgentRole where
  | drafter
  | safety_guardian
  | clinical_critic
  | supervisor
  deriving DecidableEq, Repr

/-- Python `getattr(AgentRole, name)`: the only attributes that exist are the
four declared members (state.py lines 12-17); anything else — in particular
`HUMAN`, used at main.py lines 362 and 463 — raises `AttributeError`,
modelled by `none`. -/
def AgentRole.fromAttr (name : String) : Option AgentRole :=
  if name = "DRAFTER" then some .drafter
  else if name = "SAFETY_GUARDIAN" then some .safety_guardian
  else if name = "CLINICAL_CRITIC" then some .clinical_critic
  else if name = "SUPERVISOR" then some .supervisor
  else none

/-- Safety levels (state.py `SafetyLevel`).  The Python member `UNSAFE`
(value "unsafe") is spelled `unSafe` here because its Python spelling is a
Lean keyword. -/
inductive SafetyLevel where
  | safe
  | needs_review
  | unSafe
  deriving DecidableEq, Repr

/-- state.py `ScratchpadEntry` (timestamp dropped). -/
structure ScratchpadEntry where
  agent : AgentRole
  content : String
  iteration : Nat
  deriving DecidableEq, Repr

/-- state.py `DraftVersion` (timestamp dropped). -/
structure DraftVersion where
  version : Nat
  content : String
  created_by : AgentRole
  deriving DecidableEq, Repr

/-- state.py `SafetyAssessment`. -/
structure SafetyAssessment where
  level : SafetyLevel
  concerns : List String
  recommendations : List String
  flagged_lines : List Int
  deriving DecidableEq, Repr

/-- state.py `ClinicalAssessment`; the three 0-10 float scores are modelled
as rationals. -/
structure ClinicalAssessment where
  empathy_score : ℚ
  structure_score : ℚ
  clinical_appropriateness : ℚ
  feedback : String
  suggestions : List String
  deriving DecidableEq, Repr

/-- A chat message (role, content) from the `messages` channel. -/
structure ChatMessage where
  role : String
  content : String
  deriving DecidableEq, Repr

/-- state.py `ProtocolState`: the shared blackboard.  `human_approved` is a
Python value that the code sets to `True`, `False` or `None`, hence
`Option Bool`; `Optional[...]` fields are `Option`. -/
structure ProtocolState where
  user_intent : String
  user_context : Option String
  current_draft : String
  draft_versions : List DraftVersion
  scratchpad : List ScratchpadEntry
  safety_assessment : Option SafetyAssessment
  clinical_assessment : Option ClinicalAssessment
  iteration_count : Nat
  max_iterations : Nat
  current_agent : Option AgentRole
  next_agent : Option AgentRole
  needs_revision : Bool
  revision_reason : Option String
  requires_human_approval : Bool
  human_approved : Option Bool
  human_feedback : Option String
  human_edits : Option String
  final_protocol : Option String
  completed : Bool
  messages : List ChatMessage
  deriving Repr

/-- state.py `create_initial_state`: note the hard-coded
`max_iterations = 5` and `human_approved = False`. -/
def create_initial_state (user_intent : String) (user_context : Option String) :
    ProtocolState where
  user_intent := user_intent
  user_context := user_context
  current_draft := ""
  draft_versions := []
  scratchpad := []
  safety_assessment := none
  clinical_assessment := none
  iteration_count := 0
  max_iterations := 5
  current_agent := none
  next_agent := some .supervisor
  needs_revision := false
  revision_reason := none
  requires_human_approval := false
  human_approved := some false
  human_feedback := none
  human_edits := none
  final_protocol := none
  completed := false
  messages := []

/-- Python truthiness of an `Optional[bool]` (`None` and `False` are falsy). -/
def truthyOB : Option Bool → Bool
  | some true => true
  | _ => false

/-- Python truthiness of an `Optional[str]` (`None` and `""` are falsy). -/
def truthyOS : Option String → Bool
  | some s => s ≠ ""
  | none => false

/-- Python `a or default` for an `Optional[str]` left operand. -/
def orDefault (o : Option String) (d : String) : String :=
  match o with
  | some s => if s = "" then d else s
  | none => d

/-! ## Supervisor agent (backend/agents/supervisor.py) -/

/-- supervisor.py `_request_revision` (lines 114-138), with the LangGraph
merge folded in: the returned dict overwrites `iteration_count`,
`current_agent`, `next_agent`, `needs_revision`, appends one scratchpad
entry and one message, and clears both assessments when
`clear_assessments` is set.  Scratchpad/message text is abbreviated (the
source interpolates the decision log); no claim inspects it. -/
def requestRevision (s : ProtocolState) (newIteration : Nat)
    (clearAssessments : Bool) : ProtocolState :=
  let base := { s with
    iteration_count := newIteration
    current_agent := some AgentRole.supervisor
    next_agent := some AgentRole.drafter
    needs_revision := true
    scratchpad := s.scratchpad ++
      [⟨AgentRole.supervisor, "Supervisor: requesting revision", newIteration⟩]
    messages := s.messages ++
      [⟨"assistant", "Supervisor: Requesting revision"⟩] }
  if clearAssessments then
    { base with safety_assessment := none, clinical_assessment := none }
  else base

/-- supervisor.py `_route_to_agent` (lines 140-156). -/
def routeToAgent (s : ProtocolState) (newIteration : Nat)
    (nextAgent : AgentRole) (needsRevision : Bool) : ProtocolState :=
  { s with
    iteration_count := newIteration
    current_agent := some AgentRole.supervisor
    next_agent := some nextAgent
    needs_revision := needsRevision
    scratchpad := s.scratchpad ++
      [⟨AgentRole.supervisor, "Supervisor: routing", newIteration⟩]
    messages := s.messages ++ [⟨"assistant", "Supervisor: Routing"⟩] }

/-- supervisor.py `_request_human_approval` (lines 158-174). -/
def requestHumanApproval (s : ProtocolState) (newIteration : Nat) :
    ProtocolState :=
  { s with
    iteration_count := newIteration
    current_agent := some AgentRole.supervisor
    next_agent := none
    requires_human_approval := true
    scratchpad := s.scratchpad ++
      [⟨AgentRole.supervisor, "Supervisor: awaiting human approval",
        newIteration⟩]
    messages := s.messages ++
      [⟨"assistant", "Supervisor: Ready for human approval"⟩] }

/-- supervisor.py `_complete_workflow` (lines 176-192).  Note that it sets
`requires_human_approval` (not `completed`) and increments
`iteration_count` once more. -/
def completeWorkflow (s : ProtocolState) : ProtocolState :=
  { s with
    iteration_count := s.iteration_count + 1
    current_agent := some AgentRole.supervisor
    next_agent := none
    requires_human_approval := true
    scratchpad := s.scratchpad ++
      [⟨AgentRole.supervisor, "Supervisor: Workflow complete",
        s.iteration_count + 1⟩]
    messages := s.messages ++
      [⟨"assistant", "Supervisor: Workflow complete"⟩] }

/-- (3 scores)/3, as computed at supervisor.py lines 83-87 and
clinical_critic.py lines 95-99. -/
def clinicalAvg (c : ClinicalAssessment) : ℚ :=
  (c.empathy_score + c.structure_score + c.clinical_appropriateness) / 3

/-- supervisor.py `SupervisorAgent.__call__` (lines 14-112), decision
cascade in source order: (1) `needs_revision` set → revision routed to the
drafter with both assessments cleared and `human_approved` reset to `None`
(lines 36-43); (2) `new_iteration >= max_iterations` → complete (46-48);
(3) falsy `current_draft` → drafter (51-54); (4) no safety assessment →
safety guardian (57-60); (5) safety level unsafe or needs_review →
revision without clearing (63-72); (6) no clinical assessment → clinical
critic (75-78); (7) average clinical score < 7 → revision (81-92);
(8) otherwise both assessments pass → human approval (97-101).  The
source's trailing needs-revision/fallback branches (104-112) are
unreachable once the guards above hold and collapse into branch (8). -/
def supervisorCall (s : ProtocolState) : ProtocolState :=
  let newIteration := s.iteration_count + 1
  if s.needs_revision then
    { requestRevision s newIteration true with human_approved := none }
  else if s.max_iterations ≤ newIteration then
    completeWorkflow s
  else if s.current_draft = "" then
    routeToAgent s newIteration AgentRole.drafter false
  else
    match s.safety_assessment with
    | none => routeToAgent s newIteration AgentRole.safety_guardian false
    | some sa =>
      if sa.level = SafetyLevel.unSafe then
        requestRevision s newIteration false
      else if sa.level = SafetyLevel.needs_review then
        requestRevision s newIteration false
      else
        match s.clinical_assessment with
        | none => routeToAgent s newIteration AgentRole.clinical_critic false
        | some ca =>
          if clinicalAvg ca < 7 then
            requestRevision s newIteration false
          else
            requestHumanApproval s newIteration

/-! ## Drafter agent (backend/agents/drafter.py) -/

/-- drafter.py `DrafterAgent.__call__` (lines 51-113).  The LLM reply is the
oracle `draft_content`.  The returned dict sets `current_draft`, appends
exactly one `DraftVersion` with `version = len(draft_versions) + 1`
(lines 83-87) and one scratchpad entry at the current (unincremented)
iteration, routes to the safety guardian, clears `needs_revision`,
`revision_reason`, `human_approved` and `human_feedback`. -/
def drafterCall (draft_content : String) (s : ProtocolState) : ProtocolState :=
  let newVersion : DraftVersion :=
    ⟨s.draft_versions.length + 1, draft_content, AgentRole.drafter⟩
  { s with
    current_draft := draft_content
    draft_versions := s.draft_versions ++ [newVersion]
    scratchpad := s.scratchpad ++
      [⟨AgentRole.drafter, "Created draft version", s.iteration_count⟩]
    current_agent := some AgentRole.drafter
    next_agent := some AgentRole.safety_guardian
    needs_revision := false
    revision_reason := none
    human_approved := none
    human_feedback := none
    messages := s.messages ++ [⟨"assistant", "Drafter: Created draft"⟩] }

/-! ## JSON oracle and Python exceptions

The safety guardian and clinical critic parse the generator's free-form
reply with `json.loads` after stripping markdown fences.  `json.loads` is
an external library call, so a checker step is parametrised by its
outcome: `Except String JValue`, an error message on parse failure or the
parsed JSON value on success. -/

/-- A parsed Python/JSON value. -/
inductive JValue where
  | null
  | bool (b : Bool)
  | num (q : ℚ)
  | str (s : String)
  | arr (elems : List JValue)
  | obj (fields : List (String × JValue))

/-- The Python exceptions the embedded endpoints and workers can raise. -/
inductive PyError where
  | attributeError
  | keyError
  | typeError
  | valueError
  | validationError
  | invalidState
  | httpBadRequest
  deriving DecidableEq, Repr

/-- First binding of a key in a JSON object (the concrete replies used in
the proofs have no duplicate keys). -/
def jLookup (fields : List (String × JValue)) (key : String) : Option JValue :=
  match fields with
  | [] => none
  | (k, v) :: rest => if k = key then some v else jLookup rest key

/-- Python `data[key]`: `KeyError` on a missing key, `TypeError` when the
value is not a dict. -/
def jGetItem (j : JValue) (key : String) : Except PyError JValue :=
  match j with
  | .obj fields =>
    match jLookup fields key with
    | some v => .ok v
    | none => .error .keyError
  | _ => .error .typeError

/-- Python `data.get(key, default)` on a dict. -/
def jGetDefault (j : JValue) (key : String) (dflt : JValue) : JValue :=
  match j with
  | .obj fields => (jLookup fields key).getD dflt
  | _ => dflt

/-- Pydantic coercion of a JSON value to `List[str]`. -/
def jStringList (j : JValue) : Except PyError (List String) :=
  match j with
  | .arr elems =>
    elems.mapM fun e =>
      match e with
      | .str s => Except.ok s
      | _ => Except.error PyError.validationError
  | _ => .error .validationError

/-- Pydantic coercion of a JSON value to `List[int]`. -/
def jIntList (j : JValue) : Except PyError (List Int) :=
  match j with
  | .arr elems =>
    elems.mapM fun e =>
      match e with
      | .num q => if q.den = 1 then Except.ok q.num
                  else Except.error PyError.validationError
      | _ => Except.error PyError.validationError
  | _ => .error .validationError

/-- Python `SafetyLevel(value)` (enum call): `ValueError` unless the value
is one of the three member strings. -/
def safetyLevelOfJson (v : JValue) : Except PyError SafetyLevel :=
  match v with
  | .str s =>
    if s = "safe" then .ok .safe
    else if s = "needs_review" then .ok .needs_review
    else if s = "unsafe" then .ok .unSafe
    else .error .valueError
  | _ => .error .valueError

/-! ## Safety guardian agent (backend/agents/safety_guardian.py) -/

/-- safety_guardian.py lines 85-112: the `try` block covers only fence
stripping and `json.loads`; on its failure `assessment_data` becomes the
fallback dict with level "needs_review" and a concern naming the parse
error (lines 99-104).  The subsequent `SafetyAssessment(...)` construction
(lines 107-112) is OUTSIDE the `try`: `assessment_data["level"]` can raise
`KeyError`/`TypeError` and `SafetyLevel(...)` can raise `ValueError`, and
those escape the worker. -/
def safetyParse (parsed : Except String JValue) :
    Except PyError SafetyAssessment := do
  let assessment_data : JValue :=
    match parsed with
    | .ok j => j
    | .error e =>
      .obj [("level", .str "needs_review"),
            ("concerns",
             .arr [.str ("Unable to parse safety assessment: " ++ e)]),
            ("recommendations", .arr [.str "Manual review required"]),
            ("flagged_lines", .arr [])]
  let levelValue ← jGetItem assessment_data "level"
  let level ← safetyLevelOfJson levelValue
  let concerns ← jStringList (jGetDefault assessment_data "concerns" (.arr []))
  let recommendations ←
    jStringList (jGetDefault assessment_data "recommendations" (.arr []))
  let flagged_lines ←
    jIntList (jGetDefault assessment_data "flagged_lines" (.arr []))
  return ⟨level, concerns, recommendations, flagged_lines⟩

/-- safety_guardian.py lines 115-147: the update dict built from a
constructed assessment: `needs_revision` iff the level is not safe
(line 128), `next_agent` is the supervisor on revision and the clinical
critic otherwise (line 140). -/
def safetyApply (sa : SafetyAssessment) (s : ProtocolState) : ProtocolState :=
  let needsRevision : Bool := sa.level ≠ SafetyLevel.safe
  { s with
    safety_assessment := some sa
    scratchpad := s.scratchpad ++
      [⟨AgentRole.safety_guardian, "Safety Level", s.iteration_count⟩]
    current_agent := some AgentRole.safety_guardian
    next_agent := some (if needsRevision then AgentRole.supervisor
                        else AgentRole.clinical_critic)
    needs_revision := needsRevision
    revision_reason :=
      if needsRevision then
        some ("Safety concerns identified: " ++
          String.intercalate "; " sa.concerns)
      else none
    messages := s.messages ++ [⟨"assistant", "Safety Guardian"⟩] }

/-- safety_guardian.py `SafetyGuardianAgent.__call__` (lines 60-147):
parse, then build the assessment and the state update; a `KeyError` /
`TypeError` / `ValueError` / pydantic error from the construction
propagates out of the worker. -/
def safetyGuardianCall (parsed : Except String JValue) (s : ProtocolState) :
    Except PyError ProtocolState :=
  (safetyParse parsed).map fun sa => safetyApply sa s

/-! ## Clinical critic agent (backend/agents/clinical_critic.py) -/

/-- Python `float(x)` as used at clinical_critic.py lines 87-89 on values
taken from parsed JSON (numbers pass; other JSON values raise). -/
def jToFloat (v : JValue) : Except PyError ℚ :=
  match v with
  | .num q => .ok q
  | .bool b => .ok (if b then 1 else 0)
  | _ => .error .valueError

/-- Pydantic string coercion for the `feedback` field. -/
def jToStr (v : JValue) : Except PyError String :=
  match v with
  | .str s => .ok s
  | _ => .error .validationError

/-- clinical_critic.py lines 67-92: the bare `except` covers only fence
stripping and `json.loads`, falling back to the all-5.0 dict (lines
77-83); the `float(...)` conversions and the pydantic `ge=0, le=10`
bounds of `ClinicalAssessment` (state.py lines 51-57) are outside it. -/
def clinicalParse (parsed : Except String JValue) :
    Except PyError ClinicalAssessment := do
  let assessment_data : JValue :=
    match parsed with
    | .ok j => j
    | .error _ =>
      .obj [("empathy_score", .num 5), ("structure_score", .num 5),
            ("clinical_appropriateness", .num 5),
            ("feedback", .str "Unable to parse assessment"),
            ("suggestions", .arr [.str "Manual review required"])]
  let empathy ← jToFloat (jGetDefault assessment_data "empathy_score" (.num 5))
  let structureScore ←
    jToFloat (jGetDefault assessment_data "structure_score" (.num 5))
  let appropriateness ←
    jToFloat (jGetDefault assessment_data "clinical_appropriateness" (.num 5))
  let feedback ← jToStr (jGetDefault assessment_data "feedback" (.str ""))
  let suggestions ←
    jStringList (jGetDefault assessment_data "suggestions" (.arr []))
  if 0 ≤ empathy ∧ empathy ≤ 10 ∧ 0 ≤ structureScore ∧ structureScore ≤ 10 ∧
      0 ≤ appropriateness ∧ appropriateness ≤ 10 then
    return ⟨empathy, structureScore, appropriateness, feedback, suggestions⟩
  else
    .error .validationError

/-- clinical_critic.py lines 94-133: `needs_revision` iff the average
score is below 7.0 (line 102); always routes back to the supervisor
(line 126). -/
def clinicalApply (ca : ClinicalAssessment) (s : ProtocolState) :
    ProtocolState :=
  let needsRevision : Bool := clinicalAvg ca < 7
  { s with
    clinical_assessment := some ca
    scratchpad := s.scratchpad ++
      [⟨AgentRole.clinical_critic, "Scores", s.iteration_count⟩]
    current_agent := some AgentRole.clinical_critic
    next_agent := some AgentRole.supervisor
    needs_revision := needsRevision
    revision_reason :=
      if needsRevision then some "Clinical quality below threshold" else none
    messages := s.messages ++ [⟨"assistant", "Clinical Critic"⟩] }

/-- clinical_critic.py `ClinicalCriticAgent.__call__` (lines 42-133). -/
def clinicalCriticCall (parsed : Except String JValue) (s : ProtocolState) :
    Except PyError ProtocolState :=
  (clinicalParse parsed).map fun ca => clinicalApply ca s

/-! ## Graph wiring (backend/graph/workflow.py) and endpoints
(backend/main.py) -/

/-- The LangGraph nodes, plus the paused-before-`human_approval`
configuration (`interrupt_before=["human_approval"]`, workflow.py line
164) and the END node. -/
inductive Node where
  | supervisor
  | drafter
  | safety_guardian
  | clinical_critic
  | human_approval
  | finished
  deriving DecidableEq, Repr

/-- workflow.py `route_to_agent` (lines 48-64): map `next_agent` to a node,
defaulting to the supervisor. -/
def routeToAgentNode (s : ProtocolState) : Node :=
  match s.next_agent with
  | some .drafter => .drafter
  | some .safety_guardian => .safety_guardian
  | some .clinical_critic => .clinical_critic
  | some .supervisor => .supervisor
  | none => .supervisor

/-- The conditional edge out of the supervisor (workflow.py lines 129-144):
pause for the human when approval is required and not yet granted, end when
completed or approved, otherwise dispatch on `next_agent`. -/
def routeAfterSupervisor (s : ProtocolState) : Node :=
  if s.requires_human_approval ∧ truthyOB s.human_approved = false then
    .human_approval
  else if s.completed ∨ truthyOB s.human_approved then
    .finished
  else
    routeToAgentNode s

/-- workflow.py `should_continue` (lines 15-45), the conditional edge out
of the `human_approval` node, in source order. -/
inductive RouteTag where
  | toSupervisor
  | toHumanApproval
  | toEnd
  deriving DecidableEq, Repr

/-- workflow.py lines 15-45. -/
def shouldContinue (s : ProtocolState) : RouteTag :=
  if s.requires_human_approval ∧ truthyOB s.human_approved = false then
    .toHumanApproval
  else if truthyOB s.human_approved then
    (if truthyOS s.human_edits then .toSupervisor else .toEnd)
  else if s.completed then
    .toEnd
  else if s.max_iterations ≤ s.iteration_count then
    .toHumanApproval
  else if s.next_agent.isSome then
    .toSupervisor
  else
    .toHumanApproval

/-- Node reached after the `human_approval` node runs (workflow.py lines
152-160); routing back to `human_approval` re-pauses at the interrupt. -/
def routeAfterHuman (s : ProtocolState) : Node :=
  match shouldContinue s with
  | .toSupervisor => .supervisor
  | .toHumanApproval => .human_approval
  | .toEnd => .finished

/-- workflow.py `process_human_feedback` (lines 67-96), the
`human_approval` node.  With truthy `human_edits` it applies them and
completes; with truthy `human_approved` it finalises the current draft;
otherwise it returns the WHOLE state dict, which LangGraph merges through
the channel reducers — the `operator.add` channels (`draft_versions`,
`scratchpad`, `messages`) are therefore appended to themselves,
duplicating their contents. -/
def processHumanFeedback (s : ProtocolState) : ProtocolState :=
  if truthyOS s.human_edits then
    { s with
      current_draft := s.human_edits.getD ""
      final_protocol := s.human_edits
      completed := true
      messages := s.messages ++
        [⟨"assistant", "Human feedback applied - workflow complete"⟩] }
  else if truthyOB s.human_approved then
    { s with
      final_protocol := some s.current_draft
      completed := true
      messages := s.messages ++
        [⟨"assistant", "Human approved - workflow complete"⟩] }
  else
    { s with
      draft_versions := s.draft_versions ++ s.draft_versions
      scratchpad := s.scratchpad ++ s.scratchpad
      messages := s.messages ++ s.messages }

/-- The body of `POST /api/protocols/{id}/feedback` (main.py
`submit_human_feedback`, lines 304-432), applied to the run's current
state.  The handler never inspects `requires_human_approval`; it builds an
update dict (lines 320-368) and applies it with `graph.update_state`.  On
approval: clear the pause flag, set `human_approved`/`completed`, apply
truthy edits to `current_draft`/`final_protocol` or finalise the existing
draft.  On rejection: record feedback (with the `or`-default of line 340),
set `needs_revision`, clear both assessments, route to the drafter; with
truthy edits the handler additionally constructs a `DraftVersion` with
`created_by=AgentRole.HUMAN` (line 362) — an `AttributeError`, raised
BEFORE `update_state`, so the state is untouched and the endpoint returns
a 500. -/
def submitHumanFeedback (approved : Bool) (feedback edits : Option String)
    (s : ProtocolState) : Except PyError ProtocolState :=
  if approved then
    .ok { s with
      requires_human_approval := false
      human_approved := some true
      completed := true
      current_draft := if truthyOS edits then edits.getD "" else s.current_draft
      final_protocol :=
        if truthyOS edits then edits else some s.current_draft }
  else
    if truthyOS edits then
      match AgentRole.fromAttr "HUMAN" with
      | some role =>
        .ok { s with
          requires_human_approval := false
          human_approved := some false
          human_feedback := some (orDefault feedback "Human requested revisions")
          needs_revision := true
          revision_reason := some (orDefault feedback "Human requested revisions")
          next_agent := some AgentRole.drafter
          completed := false
          safety_assessment := none
          clinical_assessment := none
          current_draft := edits.getD ""
          human_edits := edits
          draft_versions := s.draft_versions ++
            [⟨s.draft_versions.length + 1, edits.getD "", role⟩] }
      | none => .error .attributeError
    else
      .ok { s with
        requires_human_approval := false
        human_approved := some false
        human_feedback := some (orDefault feedback "Human requested revisions")
        needs_revision := true
        revision_reason := some (orDefault feedback "Human requested revisions")
        next_agent := some AgentRole.drafter
        completed := false
        safety_assessment := none
        clinical_assessment := none }

/-- `POST /api/protocols/{id}/save` (main.py `save_draft`, lines 435-483):
400 for falsy draft content, otherwise it constructs a `DraftVersion` with
`created_by=AgentRole.HUMAN` (line 463) — an `AttributeError` before any
state update. -/
def saveDraft (draft : Option String) (s : ProtocolState) :
    Except PyError ProtocolState :=
  if truthyOS draft = false then
    .error .httpBadRequest
  else
    match AgentRole.fromAttr "HUMAN" with
    | some role =>
      .ok { s with
        current_draft := draft.getD ""
        draft_versions := s.draft_versions ++
          [⟨s.draft_versions.length + 1, draft.getD "", role⟩] }
    | none => .error .attributeError

/-- Outcome of `POST /api/protocols` (main.py `create_protocol`, lines
136-191). -/
inductive CreateRunResult where
  | rejected (e : PyError)
  | started (s : ProtocolState)

/-- `POST /api/protocols`: the request model `ProtocolRequest` requires the
`user_intent` field (main.py lines 48-50), so a missing field is rejected
with a 422 validation error before the handler runs; any present string —
including the empty string, which no code checks — creates and persists a
history row and starts the workflow on `create_initial_state`. -/
def create_protocol (user_intent : Option String)
    (user_context : Option String) : CreateRunResult :=
  match user_intent with
  | none => .rejected .validationError
  | some intent => .started (create_initial_state intent user_context)

/-! ## The executable transition system

One configuration is the persisted run state plus the graph position.
Steps are: executing the node the graph is at (workers are parametrised
by their oracle inputs), or — while paused at the interrupt — a human
decision followed by the resumed `human_approval` node, or the
out-of-band save endpoint.  A worker whose exception escapes aborts the
run without persisting an update, so only `Except.ok` outcomes yield
transitions. -/

/-- A graph configuration: persisted state plus current node. -/
structure Cfg where
  state : ProtocolState
  node : Node
  deriving Repr

/-- One transition of the system. -/
inductive Step : Cfg → Cfg → Prop where
  | supervisor (s : ProtocolState) :
      Step ⟨s, .supervisor⟩
        ⟨supervisorCall s, routeAfterSupervisor (supervisorCall s)⟩
  | drafter (s : ProtocolState) (draft_content : String) :
      Step ⟨s, .drafter⟩ ⟨drafterCall draft_content s, .supervisor⟩
  | safety (s s' : ProtocolState) (parsed : Except String JValue)
      (h : safetyGuardianCall parsed s = .ok s') :
      Step ⟨s, .safety_guardian⟩ ⟨s', .supervisor⟩
  | clinical (s s' : ProtocolState) (parsed : Except String JValue)
      (h : clinicalCriticCall parsed s = .ok s') :
      Step ⟨s, .clinical_critic⟩ ⟨s', .supervisor⟩
  | feedback (s s' : ProtocolState) (approved : Bool)
      (fb edits : Option String)
      (h : submitHumanFeedback approved fb edits s = .ok s') :
      Step ⟨s, .human_approval⟩
        ⟨processHumanFeedback s', routeAfterHuman (processHumanFeedback s')⟩
  | save (s s' : ProtocolState) (draft : Option String) (n : Node)
      (h : saveDraft draft s = .ok s') :
      Step ⟨s, n⟩ ⟨s', n⟩

/-- States reachable by a run created for `intent`/`ctx`: the graph enters
at the supervisor (workflow.py line 126). -/
def Reachable (intent : String) (ctx : Option String) (c : Cfg) : Prop :=
  Relation.ReflTransGen Step ⟨create_initial_state intent ctx, .supervisor⟩ c

/-- Transitions without a human rejection decision (the rejection resume
replays the whole state dict through the `operator.add` reducers and
duplicates the list channels; excluding it isolates the part of the
version-numbering discipline that the code does maintain). -/
inductive StepNoReject : Cfg → Cfg → Prop where
  | supervisor (s : ProtocolState) :
      StepNoReject ⟨s, .supervisor⟩
        ⟨supervisorCall s, routeAfterSupervisor (supervisorCall s)⟩
  | drafter (s : ProtocolState) (draft_content : String) :
      StepNoReject ⟨s, .drafter⟩ ⟨drafterCall draft_content s, .supervisor⟩
  | safety (s s' : ProtocolState) (parsed : Except String JValue)
      (h : safetyGuardianCall parsed s = .ok s') :
      StepNoReject ⟨s, .safety_guardian⟩ ⟨s', .supervisor⟩
  | clinical (s s' : ProtocolState) (parsed : Except String JValue)
      (h : clinicalCriticCall parsed s = .ok s') :
      StepNoReject ⟨s, .clinical_critic⟩ ⟨s', .supervisor⟩
  | feedbackApproved (s s' : ProtocolState) (fb edits : Option String)
      (h : submitHumanFeedback true fb edits s = .ok s') :
      StepNoReject ⟨s, .human_approval⟩
        ⟨processHumanFeedback s', routeAfterHuman (processHumanFeedback s')⟩
  | save (s s' : ProtocolState) (draft : Option String) (n : Node)
      (h : saveDraft draft s = .ok s') :
      StepNoReject ⟨s, n⟩ ⟨s', n⟩

/-- Reachability along rejection-free executions. -/
def ReachableNoReject (intent : String) (ctx : Option String) (c : Cfg) :
    Prop :=
  Relation.ReflTransGen StepNoReject
    ⟨create_initial_state intent ctx, .supervisor⟩ c

/-! ## A concrete execution: safety always fails

The trace used by several counterexamples below: `max_iterations = 5`
(the hard-coded initial value), the drafter always produces a draft and
the safety check always answers level "unsafe". -/

/-- A parsed safety reply with level "unsafe". -/
def unsafeReply : Except String JValue :=
  .ok (.obj [("level", .str "unsafe"),
             ("concerns", .arr [.str "encourages rumination"]),
             ("recommendations", .arr []),
             ("flagged_lines", .arr [])])

/-- Trace state 0: the freshly created run. -/
def t0 : ProtocolState := create_initial_state "calm breathing exercise" none

/-- After the first supervisor decision (route to drafter, iteration 1). -/
def t1 : ProtocolState := supervisorCall t0

/-- After the first draft. -/
def t2 : ProtocolState := drafterCall "draft one" t1

/-- Supervisor routes to the safety guardian (iteration 2). -/
def t3 : ProtocolState := supervisorCall t2

/-- The safety guardian reports level "unsafe" (sets `needs_revision`
while depositing its assessment). -/
def t4 : ProtocolState := safetyApply ⟨.unSafe, ["encourages rumination"], [], []⟩ t3

/-- Supervisor processes the revision (clears assessments, iteration 3). -/
def t5 : ProtocolState := supervisorCall t4

/-- Second draft. -/
def t6 : ProtocolState := drafterCall "draft two" t5

/-- Supervisor routes to safety again (iteration 4). -/
def t7 : ProtocolState := supervisorCall t6

/-- Second "unsafe" verdict. -/
def t8 : ProtocolState := safetyApply ⟨.unSafe, ["encourages rumination"], [], []⟩ t7

/-- Supervisor processes the revision (iteration 5): the needs-revision
rule outranks the budget check, so the drafter is invoked once more. -/
def t9 : ProtocolState := supervisorCall t8

/-- Third draft, produced at iteration 5 = `max_iterations`. -/
def t10 : ProtocolState := drafterCall "draft three" t9

/-- The supervisor finally hits the budget check: `_complete_workflow`
pushes `iteration_count` to 6 > `max_iterations` and pauses for the
human. -/
def t11 : ProtocolState := supervisorCall t10

/-- The run state right after the feedback endpoint applies the decision
"approved with edits" to `t11`: the edits replace `current_draft` and
become `final_protocol`, but no `DraftVersion` is appended. -/
def t11resumed : ProtocolState :=
  match submitHumanFeedback true none (some "my edited exercise") t11 with
  | .ok s => s
  | .error _ => t11

/-- `t11resumed` after the resumed `human_approval` node runs. -/
def t12 : ProtocolState := processHumanFeedback t11resumed

/-- A concrete paused run (both assessments passed, supervisor requested
human approval), used to evaluate the feedback endpoint. -/
def pausedExample : ProtocolState :=
  { create_initial_state "Reduce anxiety before sleep" none with
    current_draft := "Draft v1"
    draft_versions := [⟨1, "Draft v1", AgentRole.drafter⟩]
    safety_assessment := some ⟨.safe, [], [], []⟩
    clinical_assessment := some ⟨8, 8, 8, "solid exercise", []⟩
    iteration_count := 3
    current_agent := some AgentRole.supervisor
    next_agent := none
    requires_human_approval := true
    human_approved := none }

/-- `pausedExample` after a rejection decision without edits. -/
def rejectedExample : ProtocolState :=
  match submitHumanFeedback false (some "tone it down") none pausedExample with
  | .ok s => s
  | .error _ => pausedExample

/-- The draft-version list is well-numbered: versions are exactly
`1..length` in order. -/
def goodVersions (l : List DraftVersion) : Prop :=
  l.map DraftVersion.version = List.range' 1 l.length

/-- The inductive invariant of the transition system.  `human_edits` is
never successfully written; the pause flag is only up while parked at the
interrupt; a pause with the flag up has no pending revision; the
supervisor/drafter run at iterations at most `max_iterations` and the two
checkers strictly below it; globally the iteration counter never passes
`max_iterations + 1`; `human_approved = True` occurs only at END. -/
structure SysInv (c : Cfg) : Prop where
  he : c.state.human_edits = none
  rhaOff : c.node ≠ Node.human_approval →
    c.state.requires_human_approval = false
  pausedOk : c.node = Node.human_approval →
    c.state.needs_revision = false ∨ c.state.requires_human_approval = false
  iterSup : c.node = Node.supervisor →
    c.state.iteration_count ≤ c.state.max_iterations
  iterSupRev : c.node = Node.supervisor → c.state.needs_revision = true →
    c.state.iteration_count + 1 ≤ c.state.max_iterations
  iterDrafter : c.node = Node.drafter →
    c.state.iteration_count ≤ c.state.max_iterations
  iterChecker : c.node = Node.safety_guardian ∨ c.node = Node.clinical_critic →
    c.state.iteration_count + 1 ≤ c.state.max_iterations
  iterAll : c.state.iteration_count ≤ c.state.max_iterations + 1
  haNotTrue : c.node ≠ Node.finished → c.state.human_approved ≠ some true

/-! ## Helper lemmas -/

lemma truthyOB_eq_false {o : Option Bool} (h : o ≠ some true) :
    truthyOB o = false := by
  cases o with
  | none => rfl
  | some b => cases b with
    | false => rfl
    | true => exact absurd rfl h

lemma fromAttr_human : AgentRole.fromAttr "HUMAN" = none := by decide

/-- The save endpoint can never complete: it always 400s or raises the
`AgentRole.HUMAN` `AttributeError`. -/
lemma saveDraft_no_ok (draft : Option String) (s s' : ProtocolState) :
    saveDraft draft s ≠ .ok s' := by
  unfold saveDraft
  by_cases h : truthyOS draft = false
  · simp [h]
  · simp [h, fromAttr_human]

lemma safetyGuardianCall_ok {parsed : Except String JValue}
    {s s' : ProtocolState} (h : safetyGuardianCall parsed s = .ok s') :
    ∃ sa, s' = safetyApply sa s := by
  unfold safetyGuardianCall at h
  cases hp : safetyParse parsed with
  | error e => rw [hp] at h; exact absurd h (by simp [Except.map])
  | ok sa =>
    rw [hp] at h
    simp [Except.map] at h
    exact ⟨sa, h.symm⟩

lemma clinicalCriticCall_ok {parsed : Except String JValue}
    {s s' : ProtocolState} (h : clinicalCriticCall parsed s = .ok s') :
    ∃ ca, s' = clinicalApply ca s := by
  unfold clinicalCriticCall at h
  cases hp : clinicalParse parsed with
  | error e => rw [hp] at h; exact absurd h (by simp [Except.map])
  | ok ca =>
    rw [hp] at h
    simp [Except.map] at h
    exact ⟨ca, h.symm⟩

/-- Rejection with truthy edits always raises (main.py line 362). -/
lemma submitHumanFeedback_reject_edits {feedback edits : Option String}
    {s : ProtocolState} (h : truthyOS edits = true) :
    submitHumanFeedback false feedback edits s = .error .attributeError := by
  unfold submitHumanFeedback
  simp [h, fromAttr_human]



lemma sysInv_mk_pause (X : ProtocolState) (h1 : X.human_edits = none)
    (h2 : X.needs_revision = false ∨ X.requires_human_approval = false)
    (h3 : X.iteration_count ≤ X.max_iterations + 1)
    (h4 : X.human_approved ≠ some true) : SysInv ⟨X, .human_approval⟩ :=
  ⟨h1, fun h => absurd rfl h, fun _ => h2, fun h => Node.noConfusion h,
    fun h => Node.noConfusion h, fun h => Node.noConfusion h,
    fun h => h.elim (fun h => Node.noConfusion h) (fun h => Node.noConfusion h),
    h3, fun _ => h4⟩

lemma sysInv_mk_finished (X : ProtocolState) (h1 : X.human_edits = none)
    (h2 : X.requires_human_approval = false)
    (h3 : X.iteration_count ≤ X.max_iterations + 1) : SysInv ⟨X, .finished⟩ :=
  ⟨h1, fun _ => h2, fun h => Node.noConfusion h, fun h => Node.noConfusion h,
    fun h => Node.noConfusion h, fun h => Node.noConfusion h,
    fun h => h.elim (fun h => Node.noConfusion h) (fun h => Node.noConfusion h),
    h3, fun h => absurd rfl h⟩

lemma sysInv_mk_drafter (X : ProtocolState) (h1 : X.human_edits = none)
    (h2 : X.requires_human_approval = false)
    (h3 : X.iteration_count ≤ X.max_iterations)
    (h4 : X.human_approved ≠ some true) : SysInv ⟨X, .drafter⟩ :=
  ⟨h1, fun _ => h2, fun h => Node.noConfusion h, fun h => Node.noConfusion h,
    fun h => Node.noConfusion h, fun _ => h3,
    fun h => h.elim (fun h => Node.noConfusion h) (fun h => Node.noConfusion h),
    Nat.le_succ_of_le h3, fun _ => h4⟩

lemma sysInv_mk_supervisor (X : ProtocolState) (h1 : X.human_edits = none)
    (h2 : X.requires_human_approval = false)
    (h3 : X.iteration_count ≤ X.max_iterations)
    (h3r : X.needs_revision = true →
      X.iteration_count + 1 ≤ X.max_iterations)
    (h4 : X.human_approved ≠ some true) : SysInv ⟨X, .supervisor⟩ :=
  ⟨h1, fun _ => h2, fun h => Node.noConfusion h, fun _ => h3, fun _ => h3r,
    fun h => Node.noConfusion h,
    fun h => h.elim (fun h => Node.noConfusion h) (fun h => Node.noConfusion h),
    Nat.le_succ_of_le h3, fun _ => h4⟩

lemma sysInv_mk_safety (X : ProtocolState) (h1 : X.human_edits = none)
    (h2 : X.requires_human_approval = false)
    (h3 : X.iteration_count + 1 ≤ X.max_iterations)
    (h4 : X.human_approved ≠ some true) : SysInv ⟨X, .safety_guardian⟩ :=
  ⟨h1, fun _ => h2, fun h => Node.noConfusion h, fun h => Node.noConfusion h,
    fun h => Node.noConfusion h, fun h => Node.noConfusion h, fun _ => h3,
    Nat.le_succ_of_le (Nat.le_of_succ_le h3), fun _ => h4⟩

lemma sysInv_mk_clinical (X : ProtocolState) (h1 : X.human_edits = none)
    (h2 : X.requires_human_approval = false)
    (h3 : X.iteration_count + 1 ≤ X.max_iterations)
    (h4 : X.human_approved ≠ some true) : SysInv ⟨X, .clinical_critic⟩ :=
  ⟨h1, fun _ => h2, fun h => Node.noConfusion h, fun h => Node.noConfusion h,
    fun h => Node.noConfusion h, fun h => Node.noConfusion h, fun _ => h3,
    Nat.le_succ_of_le (Nat.le_of_succ_le h3), fun _ => h4⟩

lemma sysInv_step_sup (s : ProtocolState) (hi : SysInv ⟨s, .supervisor⟩) :
    SysInv ⟨supervisorCall s, routeAfterSupervisor (supervisorCall s)⟩ := by
  obtain ⟨he, rhaOff, pausedOk, iterSup, iterSupRev, iterDrafter, iterChecker,
    iterAll, haNT⟩ := hi
  have hrha : s.requires_human_approval = false := rhaOff (by simp)
  have hha : s.human_approved ≠ some true := haNT (by simp)
  have hit : s.iteration_count ≤ s.max_iterations := iterSup rfl
  have he' : s.human_edits = none := he
  cases hnr : s.needs_revision with
  | true =>
    have hit1 : s.iteration_count + 1 ≤ s.max_iterations := iterSupRev rfl hnr
    have hs' : supervisorCall s =
        { requestRevision s (s.iteration_count + 1) true with
          human_approved := none } := by
      simp [supervisorCall, hnr]
    rw [hs']
    have hroute : routeAfterSupervisor
        { requestRevision s (s.iteration_count + 1) true with
          human_approved := none } =
        if s.completed then Node.finished else Node.drafter := by
      simp [routeAfterSupervisor, requestRevision, hrha, truthyOB,
        routeToAgentNode]
    rw [hroute]
    cases hc : s.completed with
    | true =>
      simp only [hc, if_true]
      exact sysInv_mk_finished _ (by simp [requestRevision, he'])
        (by simp [requestRevision, hrha]) (by simp [requestRevision]; omega)
    | false =>
      simp only [hc, Bool.false_eq_true, if_false]
      exact sysInv_mk_drafter _ (by simp [requestRevision, he'])
        (by simp [requestRevision, hrha]) (by simp [requestRevision]; omega)
        (by simp [requestRevision])
  | false =>
    by_cases hmax : s.max_iterations ≤ s.iteration_count + 1
    · have hs' : supervisorCall s = completeWorkflow s := by
        simp [supervisorCall, hnr, hmax]
      rw [hs']
      have hroute : routeAfterSupervisor (completeWorkflow s) =
          Node.human_approval := by
        simp [routeAfterSupervisor, completeWorkflow, truthyOB_eq_false hha]
      rw [hroute]
      exact sysInv_mk_pause _ (by simp [completeWorkflow, he'])
        (Or.inl (by simp [completeWorkflow, hnr]))
        (by simp [completeWorkflow]; omega)
        (by simp [completeWorkflow]; exact hha)
    · have hmax' : s.iteration_count + 1 < s.max_iterations := by omega
      by_cases hdraft : s.current_draft = ""
      · have hs' : supervisorCall s =
            routeToAgent s (s.iteration_count + 1) AgentRole.drafter false := by
          simp [supervisorCall, hnr, hmax, hdraft]
        rw [hs']
        have hroute : routeAfterSupervisor
            (routeToAgent s (s.iteration_count + 1) AgentRole.drafter false) =
            if s.completed then Node.finished else Node.drafter := by
          simp [routeAfterSupervisor, routeToAgent, hrha,
            truthyOB_eq_false hha, routeToAgentNode]
        rw [hroute]
        cases hc : s.completed with
        | true =>
          simp only [hc, if_true]
          exact sysInv_mk_finished _ (by simp [routeToAgent, he'])
            (by simp [routeToAgent, hrha]) (by simp [routeToAgent]; omega)
        | false =>
          simp only [hc, Bool.false_eq_true, if_false]
          exact sysInv_mk_drafter _ (by simp [routeToAgent, he'])
            (by simp [routeToAgent, hrha]) (by simp [routeToAgent]; omega)
            (by simp [routeToAgent]; exact hha)
      · cases hsa : s.safety_assessment with
        | none =>
          have hs' : supervisorCall s =
              routeToAgent s (s.iteration_count + 1)
                AgentRole.safety_guardian false := by
            simp [supervisorCall, hnr, hmax, hdraft, hsa]
          rw [hs']
          have hroute : routeAfterSupervisor
              (routeToAgent s (s.iteration_count + 1)
                AgentRole.safety_guardian false) =
              if s.completed then Node.finished else Node.safety_guardian := by
            simp [routeAfterSupervisor, routeToAgent, hrha,
              truthyOB_eq_false hha, routeToAgentNode]
          rw [hroute]
          cases hc : s.completed with
          | true =>
            simp only [hc, if_true]
            exact sysInv_mk_finished _ (by simp [routeToAgent, he'])
              (by simp [routeToAgent, hrha]) (by simp [routeToAgent]; omega)
          | false =>
            simp only [hc, Bool.false_eq_true, if_false]
            exact sysInv_mk_safety _ (by simp [routeToAgent, he'])
              (by simp [routeToAgent, hrha]) (by simp [routeToAgent]; omega)
              (by simp [routeToAgent]; exact hha)
        | some sa =>
          by_cases hlev : sa.level = SafetyLevel.unSafe ∨
              sa.level = SafetyLevel.needs_review
          · have hs' : supervisorCall s =
                requestRevision s (s.iteration_count + 1) false := by
              rcases hlev with h1 | h2
              · simp [supervisorCall, hnr, hmax, hdraft, hsa, h1]
              · rcases eq_or_ne sa.level SafetyLevel.unSafe with h1 | h1
                · simp [supervisorCall, hnr, hmax, hdraft, hsa, h1]
                · simp [supervisorCall, hnr, hmax, hdraft, hsa, h1, h2]
            rw [hs']
            have hroute : routeAfterSupervisor
                (requestRevision s (s.iteration_count + 1) false) =
                if s.completed then Node.finished else Node.drafter := by
              simp [routeAfterSupervisor, requestRevision, hrha,
                truthyOB_eq_false hha, routeToAgentNode]
            rw [hroute]
            cases hc : s.completed with
            | true =>
              simp only [hc, if_true]
              exact sysInv_mk_finished _ (by simp [requestRevision, he'])
                (by simp [requestRevision, hrha])
                (by simp [requestRevision]; omega)
            | false =>
              simp only [hc, Bool.false_eq_true, if_false]
              exact sysInv_mk_drafter _ (by simp [requestRevision, he'])
                (by simp [requestRevision, hrha])
                (by simp [requestRevision]; omega)
                (by simp [requestRevision]; exact hha)
          · push_neg at hlev
            obtain ⟨hlev1, hlev2⟩ := hlev
            cases hca : s.clinical_assessment with
            | none =>
              have hs' : supervisorCall s =
                  routeToAgent s (s.iteration_count + 1)
                    AgentRole.clinical_critic false := by
                simp [supervisorCall, hnr, hmax, hdraft, hsa, hlev1, hlev2, hca]
              rw [hs']
              have hroute : routeAfterSupervisor
                  (routeToAgent s (s.iteration_count + 1)
                    AgentRole.clinical_critic false) =
                  if s.completed then Node.finished
                  else Node.clinical_critic := by
                simp [routeAfterSupervisor, routeToAgent, hrha,
                  truthyOB_eq_false hha, routeToAgentNode]
              rw [hroute]
              cases hc : s.completed with
              | true =>
                simp only [hc, if_true]
                exact sysInv_mk_finished _ (by simp [routeToAgent, he'])
                  (by simp [routeToAgent, hrha]) (by simp [routeToAgent]; omega)
              | false =>
                simp only [hc, Bool.false_eq_true, if_false]
                exact sysInv_mk_clinical _ (by simp [routeToAgent, he'])
                  (by simp [routeToAgent, hrha]) (by simp [routeToAgent]; omega)
                  (by simp [routeToAgent]; exact hha)
            | some ca =>
              by_cases havg : clinicalAvg ca < 7
              · have hs' : supervisorCall s =
                    requestRevision s (s.iteration_count + 1) false := by
                  simp [supervisorCall, hnr, hmax, hdraft, hsa, hlev1, hlev2,
                    hca, havg]
                rw [hs']
                have hroute : routeAfterSupervisor
                    (requestRevision s (s.iteration_count + 1) false) =
                    if s.completed then Node.finished else Node.drafter := by
                  simp [routeAfterSupervisor, requestRevision, hrha,
                    truthyOB_eq_false hha, routeToAgentNode]
                rw [hroute]
                cases hc : s.completed with
                | true =>
                  simp only [hc, if_true]
                  exact sysInv_mk_finished _ (by simp [requestRevision, he'])
                    (by simp [requestRevision, hrha])
                    (by simp [requestRevision]; omega)
                | false =>
                  simp only [hc, Bool.false_eq_true, if_false]
                  exact sysInv_mk_drafter _ (by simp [requestRevision, he'])
                    (by simp [requestRevision, hrha])
                    (by simp [requestRevision]; omega)
                    (by simp [requestRevision]; exact hha)
              · have hs' : supervisorCall s =
                    requestHumanApproval s (s.iteration_count + 1) := by
                  simp [supervisorCall, hnr, hmax, hdraft, hsa, hlev1, hlev2,
                    hca, havg]
                rw [hs']
                have hroute : routeAfterSupervisor
                    (requestHumanApproval s (s.iteration_count + 1)) =
                    Node.human_approval := by
                  simp [routeAfterSupervisor, requestHumanApproval,
                    truthyOB_eq_false hha]
                rw [hroute]
                exact sysInv_mk_pause _ (by simp [requestHumanApproval, he'])
                  (Or.inl (by simp [requestHumanApproval, hnr]))
                  (by simp [requestHumanApproval]; omega)
                  (by simp [requestHumanApproval]; exact hha)

lemma sysInv_step {c c' : Cfg} (hs : Step c c') (hi : SysInv c) : SysInv c' := by
  cases hs with
  | supervisor s => exact sysInv_step_sup s hi
  | drafter s content =>
    obtain ⟨he, rhaOff, _, _, _, iterDrafter, _, _, _⟩ := hi
    have hrha : s.requires_human_approval = false := rhaOff (by simp)
    have he' : s.human_edits = none := he
    have hit : s.iteration_count ≤ s.max_iterations := iterDrafter rfl
    refine sysInv_mk_supervisor _ (by simp [drafterCall, he'])
      (by simp [drafterCall, hrha]) (by simp [drafterCall]; omega) ?_
      (by simp [drafterCall])
    intro h
    simp [drafterCall] at h
  | safety s s' parsed h =>
    obtain ⟨sa, rfl⟩ := safetyGuardianCall_ok h
    obtain ⟨he, rhaOff, _, _, _, _, iterChecker, _, haNT⟩ := hi
    have hrha : s.requires_human_approval = false := rhaOff (by simp)
    have hha : s.human_approved ≠ some true := haNT (by simp)
    have he' : s.human_edits = none := he
    have hit : s.iteration_count + 1 ≤ s.max_iterations :=
      iterChecker (Or.inl rfl)
    exact sysInv_mk_supervisor _ (by simp [safetyApply, he'])
      (by simp [safetyApply, hrha]) (by simp [safetyApply]; omega)
      (by simp [safetyApply]; omega) (by simp [safetyApply]; exact hha)
  | clinical s s' parsed h =>
    obtain ⟨ca, rfl⟩ := clinicalCriticCall_ok h
    obtain ⟨he, rhaOff, _, _, _, _, iterChecker, _, haNT⟩ := hi
    have hrha : s.requires_human_approval = false := rhaOff (by simp)
    have hha : s.human_approved ≠ some true := haNT (by simp)
    have he' : s.human_edits = none := he
    have hit : s.iteration_count + 1 ≤ s.max_iterations :=
      iterChecker (Or.inr rfl)
    exact sysInv_mk_supervisor _ (by simp [clinicalApply, he'])
      (by simp [clinicalApply, hrha]) (by simp [clinicalApply]; omega)
      (by simp [clinicalApply]; omega) (by simp [clinicalApply]; exact hha)
  | save s s' draft n h => exact absurd h (saveDraft_no_ok draft s s')
  | feedback s s' approved fb edits h =>
    obtain ⟨he, _, _, _, _, _, _, iterAll, _⟩ := hi
    have he' : s.human_edits = none := he
    have hAll : s.iteration_count ≤ s.max_iterations + 1 := iterAll
    cases approved with
    | true =>
      have hs1 : s' = { s with
          requires_human_approval := false
          human_approved := some true
          completed := true
          current_draft :=
            if truthyOS edits then edits.getD "" else s.current_draft
          final_protocol :=
            if truthyOS edits then edits else some s.current_draft } := by
        simp [submitHumanFeedback] at h
        exact h.symm
      subst hs1
      have hX : processHumanFeedback { s with
          requires_human_approval := false
          human_approved := some true
          completed := true
          current_draft :=
            if truthyOS edits then edits.getD "" else s.current_draft
          final_protocol :=
            if truthyOS edits then edits else some s.current_draft } =
          { s with
            requires_human_approval := false
            human_approved := some true
            completed := true
            current_draft :=
              if truthyOS edits then edits.getD "" else s.current_draft
            final_protocol := some
              (if truthyOS edits then edits.getD "" else s.current_draft)
            messages := s.messages ++
              [⟨"assistant", "Human approved - workflow complete"⟩] } := by
        simp [processHumanFeedback, he', truthyOS, truthyOB]
      rw [hX]
      have hroute : routeAfterHuman { s with
          requires_human_approval := false
          human_approved := some true
          completed := true
          current_draft :=
            if truthyOS edits then edits.getD "" else s.current_draft
          final_protocol := some
            (if truthyOS edits then edits.getD "" else s.current_draft)
          messages := s.messages ++
            [⟨"assistant", "Human approved - workflow complete"⟩] } =
          Node.finished := by
        simp [routeAfterHuman, shouldContinue, truthyOB, truthyOS, he']
      rw [hroute]
      exact sysInv_mk_finished _ (by simp [he']) (by simp) (by simp; omega)
    | false =>
      cases hed : truthyOS edits with
      | true =>
        rw [submitHumanFeedback_reject_edits hed] at h
        exact absurd h (by simp)
      | false =>
        have hs1 : s' = { s with
            requires_human_approval := false
            human_approved := some false
            human_feedback := some (orDefault fb "Human requested revisions")
            needs_revision := true
            revision_reason := some (orDefault fb "Human requested revisions")
            next_agent := some AgentRole.drafter
            completed := false
            safety_assessment := none
            clinical_assessment := none } := by
          simp [submitHumanFeedback, hed] at h
          exact h.symm
        subst hs1
        set s1 : ProtocolState := { s with
            requires_human_approval := false
            human_approved := some false
            human_feedback := some (orDefault fb "Human requested revisions")
            needs_revision := true
            revision_reason := some (orDefault fb "Human requested revisions")
            next_agent := some AgentRole.drafter
            completed := false
            safety_assessment := none
            clinical_assessment := none } with hs1def
        have hX : processHumanFeedback s1 = { s1 with
            draft_versions := s1.draft_versions ++ s1.draft_versions
            scratchpad := s1.scratchpad ++ s1.scratchpad
            messages := s1.messages ++ s1.messages } := by
          simp [processHumanFeedback, hs1def, he', truthyOS, truthyOB]
        rw [hX]
        by_cases hm : s.max_iterations ≤ s.iteration_count
        · have hroute : routeAfterHuman { s1 with
              draft_versions := s1.draft_versions ++ s1.draft_versions
              scratchpad := s1.scratchpad ++ s1.scratchpad
              messages := s1.messages ++ s1.messages } =
              Node.human_approval := by
            simp [routeAfterHuman, shouldContinue, truthyOB, hs1def, hm]
          rw [hroute]
          refine sysInv_mk_pause _ (by simp [hs1def, he'])
            (Or.inr (by simp [hs1def])) (by simp [hs1def]; omega)
            (by simp [hs1def])
        · have hroute : routeAfterHuman { s1 with
              draft_versions := s1.draft_versions ++ s1.draft_versions
              scratchpad := s1.scratchpad ++ s1.scratchpad
              messages := s1.messages ++ s1.messages } =
              Node.supervisor := by
            simp [routeAfterHuman, shouldContinue, truthyOB, hs1def, hm]
          rw [hroute]
          refine sysInv_mk_supervisor _ (by simp [hs1def, he'])
            (by simp [hs1def]) (by simp [hs1def]; omega)
            (by simp [hs1def]; omega) (by simp [hs1def])

lemma sysInv_init (intent : String) (ctx : Option String) :
    SysInv ⟨create_initial_state intent ctx, .supervisor⟩ := by
  refine sysInv_mk_supervisor _ (by simp [create_initial_state])
    (by simp [create_initial_state]) (by simp [create_initial_state]) ?_
    (by simp [create_initial_state])
  intro h
  simp [create_initial_state] at h

lemma sysInv_reachable {intent : String} {ctx : Option String} {c : Cfg}
    (h : Reachable intent ctx c) : SysInv c := by
  induction h with
  | refl => exact sysInv_init intent ctx
  | tail _ hstep ih => exact sysInv_step hstep ih

lemma supervisorCall_dv (s : ProtocolState) :
    (supervisorCall s).draft_versions = s.draft_versions := by
  unfold supervisorCall
  dsimp only
  repeat' split
  all_goals simp [requestRevision, routeToAgent, requestHumanApproval,
    completeWorkflow]

lemma submitHumanFeedback_ok_dv {approved : Bool} {fb edits : Option String}
    {s s' : ProtocolState}
    (h : submitHumanFeedback approved fb edits s = .ok s') :
    s'.draft_versions = s.draft_versions := by
  cases approved with
  | true =>
    simp [submitHumanFeedback] at h
    rw [← h]
  | false =>
    cases hed : truthyOS edits with
    | true => rw [submitHumanFeedback_reject_edits hed] at h; exact absurd h (by simp)
    | false =>
      simp [submitHumanFeedback, hed] at h
      rw [← h]

lemma processHumanFeedback_dv (s : ProtocolState) :
    (processHumanFeedback s).draft_versions = s.draft_versions ∨
    (processHumanFeedback s).draft_versions =
      s.draft_versions ++ s.draft_versions := by
  unfold processHumanFeedback
  repeat' split
  · exact Or.inl (by simp)
  · exact Or.inl (by simp)
  · exact Or.inr (by simp)

/-- Every transition only extends `draft_versions`. -/
lemma step_dv_prefix {c c' : Cfg} (hs : Step c c') :
    c.state.draft_versions <+: c'.state.draft_versions := by
  cases hs with
  | supervisor s =>
    rw [supervisorCall_dv]
  | drafter s content => exact ⟨_, rfl⟩
  | safety s s' parsed h =>
    obtain ⟨sa, rfl⟩ := safetyGuardianCall_ok h
    show s.draft_versions <+: s.draft_versions
    rfl
  | clinical s s' parsed h =>
    obtain ⟨ca, rfl⟩ := clinicalCriticCall_ok h
    show s.draft_versions <+: s.draft_versions
    rfl
  | save s s' draft n h => exact absurd h (saveDraft_no_ok draft s s')
  | feedback s s' approved fb edits h =>
    have h1 : s'.draft_versions = s.draft_versions :=
      submitHumanFeedback_ok_dv h
    rcases processHumanFeedback_dv s' with h2 | h2 <;>
      simp [h2, h1, List.prefix_append]

lemma goodVersions_nil : goodVersions [] := rfl

lemma goodVersions_append {l : List DraftVersion} (h : goodVersions l)
    (content : String) (r : AgentRole) :
    goodVersions (l ++ [⟨l.length + 1, content, r⟩]) := by
  unfold goodVersions at h ⊢
  simp [h, List.range'_concat]
  omega

lemma processHumanFeedback_dv_approved {s : ProtocolState}
    (h : truthyOB s.human_approved = true) :
    (processHumanFeedback s).draft_versions = s.draft_versions := by
  unfold processHumanFeedback
  by_cases he : truthyOS s.human_edits
  · simp [he]
  · simp [he, h]

lemma stepNoReject_step {c c' : Cfg} (h : StepNoReject c c') : Step c c' := by
  cases h with
  | supervisor s => exact Step.supervisor s
  | drafter s content => exact Step.drafter s content
  | safety s s' parsed h => exact Step.safety s s' parsed h
  | clinical s s' parsed h => exact Step.clinical s s' parsed h
  | feedbackApproved s s' fb edits h => exact Step.feedback s s' true fb edits h
  | save s s' draft n h => exact Step.save s s' draft n h

/-- Along rejection-free executions the version numbers stay exactly
`1..N`. -/
lemma goodVersions_noReject {intent : String} {ctx : Option String} {c : Cfg}
    (h : ReachableNoReject intent ctx c) :
    goodVersions c.state.draft_versions := by
  induction h with
  | refl => exact goodVersions_nil
  | tail hr hstep ih =>
    cases hstep with
    | supervisor s =>
      show goodVersions (supervisorCall s).draft_versions
      rw [supervisorCall_dv]
      exact ih
    | drafter s content => exact goodVersions_append ih content _
    | safety s s' parsed h =>
      obtain ⟨sa, rfl⟩ := safetyGuardianCall_ok h
      exact ih
    | clinical s s' parsed h =>
      obtain ⟨ca, rfl⟩ := clinicalCriticCall_ok h
      exact ih
    | feedbackApproved s s' fb edits h =>
      have h1 : s'.draft_versions = s.draft_versions :=
        submitHumanFeedback_ok_dv h
      have h2 : truthyOB s'.human_approved = true := by
        simp [submitHumanFeedback] at h
        rw [← h]
        rfl
      show goodVersions (processHumanFeedback s').draft_versions
      rw [processHumanFeedback_dv_approved h2, h1]
      exact ih
    | save s s' draft n h => exact absurd h (saveDraft_no_ok draft s s')

/-- The always-unsafe run reaches `t4`: the safety guardian has just set
`needs_revision` while depositing its assessment. -/
lemma reach_t4 : Reachable "calm breathing exercise" none
    ⟨t4, Node.supervisor⟩ := by
  have r0 : Reachable "calm breathing exercise" none
      ⟨t0, Node.supervisor⟩ := Relation.ReflTransGen.refl
  have s01 : Step ⟨t0, Node.supervisor⟩ ⟨t1, Node.drafter⟩ :=
    Step.supervisor t0
  have s12 : Step ⟨t1, Node.drafter⟩ ⟨t2, Node.supervisor⟩ :=
    Step.drafter t1 "draft one"
  have s23 : Step ⟨t2, Node.supervisor⟩ ⟨t3, Node.safety_guardian⟩ :=
    Step.supervisor t2
  have s34 : Step ⟨t3, Node.safety_guardian⟩ ⟨t4, Node.supervisor⟩ :=
    Step.safety t3 t4 unsafeReply rfl
  exact (((r0.tail s01).tail s12).tail s23).tail s34

/-- The always-unsafe run reaches the budget-exhausted pause `t11` with
`iteration_count = 6`. -/
lemma reach_t11 : Reachable "calm breathing exercise" none
    ⟨t11, Node.human_approval⟩ := by
  have s45 : Step ⟨t4, Node.supervisor⟩ ⟨t5, Node.drafter⟩ :=
    Step.supervisor t4
  have s56 : Step ⟨t5, Node.drafter⟩ ⟨t6, Node.supervisor⟩ :=
    Step.drafter t5 "draft two"
  have s67 : Step ⟨t6, Node.supervisor⟩ ⟨t7, Node.safety_guardian⟩ :=
    Step.supervisor t6
  have s78 : Step ⟨t7, Node.safety_guardian⟩ ⟨t8, Node.supervisor⟩ :=
    Step.safety t7 t8 unsafeReply rfl
  have s89 : Step ⟨t8, Node.supervisor⟩ ⟨t9, Node.drafter⟩ :=
    Step.supervisor t8
  have s910 : Step ⟨t9, Node.drafter⟩ ⟨t10, Node.supervisor⟩ :=
    Step.drafter t9 "draft three"
  have s1011 : Step ⟨t10, Node.supervisor⟩ ⟨t11, Node.human_approval⟩ :=
    Step.supervisor t10
  exact (((((((reach_t4.tail s45).tail s56).tail s67).tail s78).tail
    s89).tail s910).tail s1011)

/-! ## Claims -/

/-- C1 (counterexample): the claim "iteration_count never exceeds
max_iterations = N in any reachable state" is false on the code: with the
hard-coded `max_iterations = 5` and a safety check that always fails, the
run reaches the paused state `t11` with `iteration_count = 6`, because the
supervisor's needs-revision rule is checked before the budget rule and
`_complete_workflow` increments once more. -/
theorem C1_counterexample :
    Reachable "calm breathing exercise" none ⟨t11, Node.human_approval⟩ ∧
    t11.max_iterations = 5 ∧ t11.iteration_count = 6 :=
  ⟨reach_t11, rfl, rfl⟩

/-- C1 (amended): in every reachable state of every run,
`iteration_count ≤ max_iterations + 1`; the supervisor increments the
counter by exactly one per decision, so a run makes at most
`max_iterations + 1` supervisor decisions and cannot loop forever. -/
theorem C1_iteration_bound (intent : String) (ctx : Option String) (c : Cfg)
    (h : Reachable intent ctx c) :
    c.state.iteration_count ≤ c.state.max_iterations + 1 ∧
    ∀ s : ProtocolState,
      (supervisorCall s).iteration_count = s.iteration_count + 1 := by
  constructor
  · exact (sysInv_reachable h).iterAll
  · intro s
    unfold supervisorCall
    dsimp only
    repeat' split
    all_goals simp [requestRevision, routeToAgent, requestHumanApproval,
      completeWorkflow]

/-- C1 (witness): the bound instantiated at a freshly created run. -/
theorem C1_witness :
    (create_initial_state "thought record" none).iteration_count ≤
      (create_initial_state "thought record" none).max_iterations + 1 ∧
    (supervisorCall (create_initial_state "thought record" none)).iteration_count =
      (create_initial_state "thought record" none).iteration_count + 1 := by
  have h := C1_iteration_bound "thought record" none
    ⟨create_initial_state "thought record" none, Node.supervisor⟩
    Relation.ReflTransGen.refl
  exact ⟨h.1, h.2 (create_initial_state "thought record" none)⟩

/-- C2: the claim that rejecting with edits applies the edits, appends a
human-authored `DraftVersion` and routes back to the Drafter is the
documented intent (main.py lines 349-366), but the code fails: `AgentRole`
has no `HUMAN` member, so constructing the version raises `AttributeError`
before `update_state`, the endpoint returns 500 and the paused run is left
untouched. -/
theorem C2_attribute_error :
    pausedExample.requires_human_approval = true ∧
    submitHumanFeedback false (some "add a safety disclaimer")
      (some "Revised exercise with a safety disclaimer") pausedExample =
      .error .attributeError :=
  ⟨rfl, rfl⟩

/-- C3 (counterexample): approving a paused run with edits sets
`final_protocol`/`completed` but appends NO `DraftVersion` — the approval
branch of `submit_human_feedback` (main.py lines 325-336) never constructs
one, contradicting the claim. -/
theorem C3_counterexample :
    (submitHumanFeedback true none (some "revised text") pausedExample).map
      (fun s1 => (s1.final_protocol, s1.completed, s1.draft_versions)) =
      .ok (some "revised text", true, pausedExample.draft_versions) ∧
    pausedExample.draft_versions.length = 1 :=
  ⟨rfl, rfl⟩

/-- C3 (amended): approving with nonempty edits E yields
`final_protocol = E`, `completed = true` and `current_draft = E` (also
after the resumed `human_approval` node), but `draft_versions` is left
unchanged — no human-authored version is appended. -/
theorem C3_approved_edits (s : ProtocolState) (fb : Option String)
    (E : String) (hE : E ≠ "") (hhe : s.human_edits = none) :
    (submitHumanFeedback true fb (some E) s).map
      (fun s1 => ((processHumanFeedback s1).final_protocol,
        (processHumanFeedback s1).completed,
        (processHumanFeedback s1).draft_versions, s1.current_draft)) =
      .ok (some E, true, s.draft_versions, E) := by
  simp [submitHumanFeedback, truthyOS, hE, Except.map, processHumanFeedback,
    truthyOB, hhe]

/-- C3 (witness): the amended claim at a concrete paused run. -/
theorem C3_witness :
    (submitHumanFeedback true none (some "final revised text")
      pausedExample).map
      (fun s1 => ((processHumanFeedback s1).final_protocol,
        (processHumanFeedback s1).completed,
        (processHumanFeedback s1).draft_versions, s1.current_draft)) =
      .ok (some "final revised text", true, pausedExample.draft_versions,
        "final revised text") :=
  C3_approved_edits pausedExample none "final revised text" (by decide) rfl

/-- C4 (counterexample): the reachable, persisted state `t4` — right after
the safety guardian reported "unsafe" — has `needs_revision = true` while
its safety assessment is present, so a revision request and a present
assessment do coexist. -/
theorem C4_counterexample :
    Reachable "calm breathing exercise" none ⟨t4, Node.supervisor⟩ ∧
    t4.needs_revision = true ∧ t4.safety_assessment ≠ none :=
  ⟨reach_t4, rfl, by simp [t4, safetyApply]⟩

/-- C4 (amended): the transitions that PROCESS a revision request do clear
both assessments in the same update — the supervisor's needs-revision rule
(clear_assessments=True) and the human rejection path — but the failing
checker itself deposits its assessment together with `needs_revision`, so
the claim does not hold of every reachable state. -/
theorem C4_revision_clears :
    (∀ s : ProtocolState, s.needs_revision = true →
      (supervisorCall s).safety_assessment = none ∧
      (supervisorCall s).clinical_assessment = none) ∧
    (∀ (s s' : ProtocolState) (fb : Option String),
      submitHumanFeedback false fb none s = .ok s' →
      s'.safety_assessment = none ∧ s'.clinical_assessment = none) := by
  constructor
  · intro s h
    simp [supervisorCall, h, requestRevision]
  · intro s s' fb h
    simp [submitHumanFeedback, truthyOS] at h
    rw [← h]
    exact ⟨rfl, rfl⟩

/-- C4 (witness): the clearing transitions at concrete inputs. -/
theorem C4_witness :
    ((supervisorCall t4).safety_assessment = none ∧
      (supervisorCall t4).clinical_assessment = none) ∧
    (rejectedExample.safety_assessment = none ∧
      rejectedExample.clinical_assessment = none) :=
  ⟨C4_revision_clears.1 t4 rfl,
   C4_revision_clears.2 pausedExample rejectedExample (some "tone it down")
     rfl⟩

/-- C5 (counterexample): generator output that parses as JSON but carries
an invalid or missing "level" raises an exception that escapes the worker
(the enum conversion at safety_guardian.py line 108 is outside the `try`);
concretely the replies `{"level": "mostly safe"}` and `{}`. -/
theorem C5_counterexample :
    safetyGuardianCall (.ok (.obj [("level", .str "mostly safe")]))
      (create_initial_state "thought record" none) = .error .valueError ∧
    safetyGuardianCall (.ok (.obj []))
      (create_initial_state "thought record" none) = .error .keyError :=
  ⟨rfl, rfl⟩

/-- C5 (amended): when JSON extraction/parsing itself fails the worker
does fail open to a needs_review assessment whose concern names the parse
failure, and any assessment it returns has one of the three valid levels,
never `safe` on the fail-open path; but JSON-valid replies without a valid
"level" raise an error that escapes the worker. -/
theorem C5_fail_open :
    (∀ (e : String) (s : ProtocolState),
      safetyGuardianCall (.error e) s = .ok (safetyApply
        ⟨.needs_review, ["Unable to parse safety assessment: " ++ e],
         ["Manual review required"], []⟩ s)) ∧
    (∀ (parsed : Except String JValue) (s s' : ProtocolState)
      (sa : SafetyAssessment), safetyGuardianCall parsed s = .ok s' →
      s'.safety_assessment = some sa →
      (sa.level = .safe ∨ sa.level = .needs_review ∨ sa.level = .unSafe)) ∧
    (∀ (e : String) (s s' : ProtocolState) (sa : SafetyAssessment),
      safetyGuardianCall (.error e) s = .ok s' →
      s'.safety_assessment = some sa → sa.level ≠ .safe) := by
  have hfb : ∀ (e : String) (s : ProtocolState),
      safetyGuardianCall (.error e) s = .ok (safetyApply
        ⟨.needs_review, ["Unable to parse safety assessment: " ++ e],
         ["Manual review required"], []⟩ s) := by
    intro e s
    rfl
  refine ⟨hfb, ?_, ?_⟩
  · intro parsed s s' sa _ _
    rcases sa with ⟨lev, co, re, fl⟩
    cases lev
    · exact Or.inl rfl
    · exact Or.inr (Or.inl rfl)
    · exact Or.inr (Or.inr rfl)
  · intro e s s' sa h hsa
    have h2 := (hfb e s).symm.trans h
    injection h2 with h3
    rw [← h3] at hsa
    simp [safetyApply] at hsa
    rw [← hsa]
    simp

/-- C5 (witness): the fail-open behaviour at a concrete parse failure. -/
theorem C5_witness :
    safetyGuardianCall (.error "Expecting value: line 1 column 1")
      (create_initial_state "worry time" none) = .ok (safetyApply
        ⟨.needs_review,
         ["Unable to parse safety assessment: Expecting value: line 1 column 1"],
         ["Manual review required"], []⟩
        (create_initial_state "worry time" none)) ∧
    (SafetyLevel.needs_review = SafetyLevel.safe ∨
      SafetyLevel.needs_review = SafetyLevel.needs_review ∨
      SafetyLevel.needs_review = SafetyLevel.unSafe) ∧
    SafetyLevel.needs_review ≠ SafetyLevel.safe :=
  ⟨C5_fail_open.1 "Expecting value: line 1 column 1"
      (create_initial_state "worry time" none),
   C5_fail_open.2.1 (.error "Expecting value: line 1 column 1")
      (create_initial_state "worry time" none) _
      ⟨.needs_review,
       ["Unable to parse safety assessment: Expecting value: line 1 column 1"],
       ["Manual review required"], []⟩
      (C5_fail_open.1 "Expecting value: line 1 column 1"
        (create_initial_state "worry time" none)) rfl,
   C5_fail_open.2.2 "Expecting value: line 1 column 1"
      (create_initial_state "worry time" none) _
      ⟨.needs_review,
       ["Unable to parse safety assessment: Expecting value: line 1 column 1"],
       ["Manual review required"], []⟩
      (C5_fail_open.1 "Expecting value: line 1 column 1"
        (create_initial_state "worry time" none)) rfl⟩

/-- C6 (counterexample): submitting an approval against a freshly created,
NOT-paused run is not rejected — the endpoint applies it, marking the run
completed and approved; no awaiting-human validation exists in
`submit_human_feedback`. -/
theorem C6_counterexample :
    (create_initial_state "breathing exercise" none).requires_human_approval
      = false ∧
    (submitHumanFeedback true none none
      (create_initial_state "breathing exercise" none)).map
      (fun s1 => (s1.completed, s1.human_approved)) = .ok (true, some true) :=
  ⟨rfl, rfl⟩

/-- C6 (amended): `submit_human_feedback` validates only that the run
exists; it never checks `requires_human_approval`, so for ANY state —
paused or not — a decision without edits is applied (setting
`human_approved`, `completed` and clearing the pause flag), and no path
produces an `InvalidState` rejection. -/
theorem C6_no_state_check :
    (∀ (s : ProtocolState) (approved : Bool) (fb : Option String),
      s.requires_human_approval = false →
      (submitHumanFeedback approved fb none s).map
        (fun s1 => (s1.human_approved, s1.completed,
          s1.requires_human_approval)) = .ok (some approved, approved, false)) ∧
    (∀ (s : ProtocolState) (approved : Bool) (fb edits : Option String),
      submitHumanFeedback approved fb edits s ≠ .error .invalidState) := by
  constructor
  · intro s approved fb _
    cases approved <;> simp [submitHumanFeedback, truthyOS, Except.map]
  · intro s approved fb edits
    cases approved with
    | false =>
      cases hed : truthyOS edits with
      | true =>
        rw [submitHumanFeedback_reject_edits hed]
        simp
      | false => simp [submitHumanFeedback, hed]
    | true => simp [submitHumanFeedback]

/-- C6 (witness): a rejection applied to a non-paused fresh run. -/
theorem C6_witness :
    (submitHumanFeedback false (some "needs work") none
      (create_initial_state "sleep hygiene" none)).map
      (fun s1 => (s1.human_approved, s1.completed,
        s1.requires_human_approval)) = .ok (some false, false, false) :=
  C6_no_state_check.1 (create_initial_state "sleep hygiene" none) false
    (some "needs work") rfl

/-- C7: no reachable state of any run has the human-approval pause flag
and the needs-revision flag set simultaneously: the supervisor pauses
(including the budget-exhausted completion) only with `needs_revision`
false, and the rejection path clears the pause flag in the same update in
which it sets `needs_revision`. -/
theorem C7_no_pause_with_revision (intent : String) (ctx : Option String)
    (c : Cfg) (h : Reachable intent ctx c) :
    ¬(c.state.requires_human_approval = true ∧
      c.state.needs_revision = true) := by
  have hi := sysInv_reachable h
  rintro ⟨h1, h2⟩
  by_cases hn : c.node = Node.human_approval
  · rcases hi.pausedOk hn with h3 | h3
    · rw [h2] at h3
      exact absurd h3 (by simp)
    · rw [h1] at h3
      exact absurd h3 (by simp)
  · have h3 := hi.rhaOff hn
    rw [h1] at h3
    exact absurd h3 (by simp)

/-- C7 (witness): the invariant at a freshly created run. -/
theorem C7_witness :
    ¬((create_initial_state "gratitude journal" none).requires_human_approval
        = true ∧
      (create_initial_state "gratitude journal" none).needs_revision = true) :=
  C7_no_pause_with_revision "gratitude journal" none
    ⟨create_initial_state "gratitude journal" none, Node.supervisor⟩
    Relation.ReflTransGen.refl

/-- C8 (counterexample): a human approval with edits is a
content-producing event — it changes `current_draft` of the reachable
paused state `t11` — yet appends no `DraftVersion`, so draft_versions
length does not equal the number of content-producing events. -/
theorem C8_counterexample :
    Reachable "calm breathing exercise" none ⟨t11, Node.human_approval⟩ ∧
    Step ⟨t11, Node.human_approval⟩ ⟨t12, Node.finished⟩ ∧
    t12.current_draft ≠ t11.current_draft ∧
    t12.draft_versions = t11.draft_versions :=
  ⟨reach_t11,
   Step.feedback t11 t11resumed true none (some "my edited exercise") rfl,
   by decide, rfl⟩

/-- C8 (amended): `draft_versions` is append-only across every transition,
and each drafter run appends exactly one entry whose version is the
previous length plus one; along rejection-free executions the version
numbers are exactly `1..N`.  But not every content-producing event
appends: approval-with-edits rewrites `current_draft` without appending,
the human-edit append paths fail with `AttributeError`, and a rejection
resume re-appends the whole list. -/
theorem C8_versions :
    (∀ c c' : Cfg, Step c c' →
      c.state.draft_versions <+: c'.state.draft_versions) ∧
    (∀ (content : String) (s : ProtocolState),
      (drafterCall content s).draft_versions = s.draft_versions ++
        [⟨s.draft_versions.length + 1, content, AgentRole.drafter⟩]) ∧
    (∀ (intent : String) (ctx : Option String) (c : Cfg),
      ReachableNoReject intent ctx c →
      c.state.draft_versions.map DraftVersion.version =
        List.range' 1 c.state.draft_versions.length) :=
  ⟨fun _ _ h => step_dv_prefix h, fun _ _ => rfl,
   fun _ _ _ h => goodVersions_noReject h⟩

/-- C8 (witness): the version discipline at a concrete drafter step. -/
theorem C8_witness :
    (create_initial_state "worry postponement" none).draft_versions <+:
      (drafterCall "v1" (create_initial_state "worry postponement"
        none)).draft_versions ∧
    (create_initial_state "worry postponement" none).draft_versions.map
      DraftVersion.version =
      List.range' 1
        (create_initial_state "worry postponement" none).draft_versions.length :=
  ⟨C8_versions.1 ⟨create_initial_state "worry postponement" none, Node.drafter⟩
      ⟨drafterCall "v1" (create_initial_state "worry postponement" none),
        Node.supervisor⟩
      (Step.drafter (create_initial_state "worry postponement" none) "v1"),
   C8_versions.2.2 "worry postponement" none
      ⟨create_initial_state "worry postponement" none, Node.supervisor⟩
      Relation.ReflTransGen.refl⟩

/-- C9 (counterexample): an EMPTY intent is not rejected — the handler
creates and starts a run for it (no code checks for emptiness; only the
pydantic required-field check guards the endpoint). -/
theorem C9_counterexample :
    create_protocol (some "") none = .started (create_initial_state "" none) :=
  rfl

/-- C9 (amended): only a MISSING intent field fails (pydantic 422, no
state created); every present string intent, including the empty string,
creates a run state and starts the workflow. -/
theorem C9_validation :
    (∀ ctx : Option String,
      create_protocol none ctx = .rejected .validationError) ∧
    (∀ (intent : String) (ctx : Option String),
      create_protocol (some intent) ctx =
        .started (create_initial_state intent ctx)) :=
  ⟨fun _ => rfl, fun _ _ => rfl⟩

/-- C9 (witness): the validation behaviour at concrete requests. -/
theorem C9_witness :
    create_protocol none none = .rejected .validationError ∧
    create_protocol (some "journaling exercise") none =
      .started (create_initial_state "journaling exercise" none) :=
  ⟨C9_validation.1 none, C9_validation.2 "journaling exercise" none⟩

/-- C10: `AgentRole` has exactly the four agent members and no value for a
human author, so every `DraftVersion` in every reachable state is
agent-authored, and both code paths that construct a human-authored
`DraftVersion` (`save_draft`, and rejection-with-edits in
`submit_human_feedback`) fail with `AttributeError` instead of appending. -/
theorem C10_no_human_role :
    (∀ r : AgentRole, r = .drafter ∨ r = .safety_guardian ∨
      r = .clinical_critic ∨ r = .supervisor) ∧
    AgentRole.fromAttr "HUMAN" = none ∧
    (∀ (intent : String) (ctx : Option String) (c : Cfg),
      Reachable intent ctx c → ∀ v ∈ c.state.draft_versions,
      v.created_by = .drafter ∨ v.created_by = .safety_guardian ∨
      v.created_by = .clinical_critic ∨ v.created_by = .supervisor) ∧
    (∀ (d : String) (s : ProtocolState), d ≠ "" →
      saveDraft (some d) s = .error .attributeError) ∧
    (∀ (s : ProtocolState) (fb : Option String) (e : String), e ≠ "" →
      submitHumanFeedback false fb (some e) s = .error .attributeError) := by
  have hall : ∀ r : AgentRole, r = .drafter ∨ r = .safety_guardian ∨
      r = .clinical_critic ∨ r = .supervisor := by
    intro r
    cases r
    · exact Or.inl rfl
    · exact Or.inr (Or.inl rfl)
    · exact Or.inr (Or.inr (Or.inl rfl))
    · exact Or.inr (Or.inr (Or.inr rfl))
  refine ⟨hall, fromAttr_human, ?_, ?_, ?_⟩
  · intro _ _ _ _ v _
    exact hall v.created_by
  · intro d s hd
    unfold saveDraft
    have ht : truthyOS (some d) = true := by simp [truthyOS, hd]
    simp [ht, fromAttr_human]
  · intro s fb e he1
    exact submitHumanFeedback_reject_edits (by simp [truthyOS, he1])

/-- C10 (witness): both human-authoring paths fail at concrete inputs. -/
theorem C10_witness :
    saveDraft (some "edited draft") (create_initial_state "stress" none) =
      .error .attributeError ∧
    submitHumanFeedback false none (some "edited draft")
      (create_initial_state "stress" none) = .error .attributeError :=
  ⟨C10_no_human_role.2.2.2.1 "edited draft"
      (create_initial_state "stress" none) (by decide),
   C10_no_human_role.2.2.2.2 (create_initial_state "stress" none) none
      "edited draft" (by decide)⟩
